import Mathlib

/-!
Verification development for the CSV-to-table conversion (CsvToSlice) and the
retrying inference-API client (ConnectAIModel) of main.go, together with the
POST /query handler logic.

The CSV layer models Go's encoding/csv Reader with its default configuration
(Comma is a comma, no Comment, FieldsPerRecord 0, LazyQuotes false,
TrimLeadingSpace false), since CsvToSlice delegates all low-level parsing to
csv.Reader.ReadAll.  Machine-level details that cannot affect any claim
(error line/column positions inside csv.ParseError, buffered reading) are not
modelled; the error taxonomy and acceptance behaviour are.
-/

namespace GoAiWeb

/-- Errors of the modelled csv.Reader.  bareQuote models ErrBareQuote,
quote models ErrQuote, fieldCount models ErrFieldCount.  fuelExhausted is an
artefact of the fuel-indexed recursion and is never produced for inputs whose
parses are examined here (fuel is chosen larger than any possible number of
steps consumed per call). -/
inductive CsvError where
  | bareQuote
  | quote
  | fieldCount
  | fuelExhausted
deriving DecidableEq, Repr

/-- How a parsed field ended: at a comma (more fields follow on the record)
or at end of line / end of input (the record is complete). -/
inductive FieldEnd where
  | comma
  | eol
deriving DecidableEq, Repr

/-- Models lengthNL of encoding/csv: 1 if the line ends in a newline byte,
0 otherwise. -/
def lengthNL (line : List Char) : Nat :=
  if line.getLast? = some '\n' then 1 else 0

/-- Split the input at the first newline, keeping the newline on the line
(models bufio ReadSlice up to and including the first newline). -/
def splitLine : List Char → (List Char × List Char)
  | [] => ([], [])
  | c :: cs =>
    if c = '\n' then ([c], cs)
    else
      let p := splitLine cs
      (c :: p.1, p.2)

/-- Models the line normalisation of csv.Reader.readLine: a trailing CRLF is
normalised to LF, and for the final line (no newline before end of input) a
trailing CR is dropped. -/
def normalizeLine (line : List Char) : List Char :=
  if line.getLast? = some '\n' then
    if line.dropLast.getLast? = some '\r' then line.dropLast.dropLast ++ ['\n']
    else line
  else if line.getLast? = some '\r' then line.dropLast
  else line

/-- Models csv.Reader.readLine: none at end of input, otherwise the next line
(with its newline, normalised) and the remaining input. -/
def readLine : List Char → Option (List Char × List Char)
  | [] => none
  | c :: cs =>
    let p := splitLine (c :: cs)
    some (normalizeLine p.1, p.2)

/-- Split a character list at the first occurrence of c, dropping c
(models bytes.IndexByte followed by the slicing done in readRecord). -/
def breakAt (c : Char) : List Char → Option (List Char × List Char)
  | [] => none
  | x :: xs =>
    if x = c then some ([], xs)
    else
      match breakAt c xs with
      | none => none
      | some (a, b) => some (x :: a, b)

/-- Models the quoted-field loop of csv.Reader.readRecord (LazyQuotes false):
scan for the closing quote; a doubled quote is an escaped quote; a quote
followed by a comma ends the field; a quote followed by the end of the line
ends the record; a quote followed by anything else is ErrQuote; if the line
ends inside the quotes, the next line is pulled in (multi-line field), and
running out of input inside the quotes is ErrQuote (missing closing quote). -/
def parseQuotedTail : Nat → List Char → List Char → List Char →
    Except CsvError (List Char × FieldEnd × List Char × List Char)
  | 0, _, _, _ => .error .fuelExhausted
  | fuel+1, buf, line, rest =>
    match breakAt '"' line with
    | some (pre, after) =>
      match after with
      | '"' :: after2 => parseQuotedTail fuel (buf ++ pre ++ ['"']) after2 rest
      | ',' :: after2 => .ok (buf ++ pre, .comma, after2, rest)
      | _ =>
        if after.length = lengthNL after then .ok (buf ++ pre, .eol, [], rest)
        else .error .quote
    | none =>
      if line.isEmpty then .error .quote
      else
        match readLine rest with
        | some (l2, r2) => parseQuotedTail fuel (buf ++ line) l2 r2
        | none => .error .quote

/-- Parse one field of a record (models one iteration of the parseField loop
of csv.Reader.readRecord).  An unquoted field runs to the next comma or to
the end of the line (excluding the newline), and may not contain a quote
character (ErrBareQuote).  A field starting with a quote is a quoted field. -/
def parseOneField (fuel : Nat) (line rest : List Char) :
    Except CsvError (String × FieldEnd × List Char × List Char) :=
  match line with
  | '"' :: lineRest =>
    match parseQuotedTail fuel [] lineRest rest with
    | .error e => .error e
    | .ok (buf, fe, l2, r2) => .ok (String.mk buf, fe, l2, r2)
  | _ =>
    match breakAt ',' line with
    | some (f, after) =>
      if f.any (fun c => c = '"') then .error .bareQuote
      else .ok (String.mk f, .comma, after, rest)
    | none =>
      let f := if lengthNL line = 1 then line.dropLast else line
      if f.any (fun c => c = '"') then .error .bareQuote
      else .ok (String.mk f, .eol, [], rest)

/-- Parse all fields of one record (the parseField loop). -/
def parseFieldsLoop : Nat → List String → List Char → List Char →
    Except CsvError (List String × List Char)
  | 0, _, _, _ => .error .fuelExhausted
  | fuel+1, acc, line, rest =>
    match parseOneField (line.length + rest.length + 1) line rest with
    | .error e => .error e
    | .ok (f, .comma, l2, r2) => parseFieldsLoop fuel (acc ++ [f]) l2 r2
    | .ok (f, .eol, _, r2) => .ok (acc ++ [f], r2)

/-- Models csv.Reader.readRecord: skip blank lines (a line that is only its
newline), return none at end of input, otherwise parse the fields of the
next record. -/
def readRecord : Nat → List Char → Except CsvError (Option (List String × List Char))
  | 0, _ => .error .fuelExhausted
  | fuel+1, cs =>
    match readLine cs with
    | none => .ok none
    | some (line, rest) =>
      if line.length = lengthNL line then readRecord fuel rest
      else
        match parseFieldsLoop (line.length + rest.length + 2) [] line rest with
        | .error e => .error e
        | .ok (rec, rest2) => .ok (some (rec, rest2))

/-- Models csv.Reader.ReadAll together with the field-count bookkeeping of
csv.Reader.Read: with FieldsPerRecord 0 the first record fixes the required
field count and every later record with a different count is ErrFieldCount
(on which ReadAll returns the error and no records). -/
def readAllLoop : Nat → List Char → Option Nat → List (List String) →
    Except CsvError (List (List String))
  | 0, _, _, _ => .error .fuelExhausted
  | fuel+1, cs, fpr, acc =>
    match readRecord (cs.length + 1) cs with
    | .error e => .error e
    | .ok none => .ok acc
    | .ok (some (rec, rest)) =>
      match fpr with
      | some n =>
        if rec.length = n then readAllLoop fuel rest fpr (acc ++ [rec])
        else .error .fieldCount
      | none => readAllLoop fuel rest (some rec.length) (acc ++ [rec])

/-- reader.ReadAll() for reader := csv.NewReader(strings.NewReader(data)). -/
def readAll (s : String) : Except CsvError (List (List String)) :=
  readAllLoop (s.length + 1) s.data none []

/-- The table built by CsvToSlice: Go's map[string][]string.  The Go map is
an unordered finite map; it is modelled as an association list with unique
keys on which assignment to an existing key replaces that key's value in
place.  The list order records first-insertion order, but no claim about Go
map iteration order may be read off from it (Go randomises iteration order);
the only key enumeration the program performs is JSON marshalling, which
sorts the keys (see marshalTableKeys). -/
abbrev Table : Type := List (String × List String)

/-- Go map assignment m[k] = v: replace the value if k is present, otherwise
add the binding. -/
def mapSet (m : Table) (k : String) (v : List String) : Table :=
  match m with
  | [] => [(k, v)]
  | (k0, v0) :: rest =>
    if k0 = k then (k, v) :: rest else (k0, v0) :: mapSet rest k v

/-- Go map lookup m[k]. -/
def mapGet (m : Table) (k : String) : Option (List String) :=
  match m with
  | [] => none
  | (k0, v0) :: rest => if k0 = k then some v0 else mapGet rest k

/-- The keys of the table. -/
def tableKeys (m : Table) : List String := m.map Prod.fst

/-- The values collected for header column i: the inner loop of CsvToSlice,
  for _, record := range records[1:] { if i < len(record) { append record[i] } }. -/
def colValues (i : Nat) (rows : List (List String)) : List String :=
  rows.filterMap (fun r => r[i]?)

/-- The header loop of CsvToSlice:
  for i, col := range header { result[col] = ...; inner loop }.
The index i starts at the given value (0 at the top-level call). -/
def buildTableAux (i : Nat) (hdr : List String) (rows : List (List String))
    (acc : Table) : Table :=
  match hdr with
  | [] => acc
  | c :: t => buildTableAux (i + 1) t rows (mapSet acc c (colValues i rows))

/-- Lines 51-61 of main.go: build result from header and data rows. -/
def buildTable (header : List String) (rows : List (List String)) : Table :=
  buildTableAux 0 header rows []

/-- The two ways CsvToSlice can fail: an error propagated from
csv.Reader.ReadAll, or errors.New("no data found") when there are no
records. -/
inductive CsvErr where
  | readErr (e : CsvError)
  | noData
deriving DecidableEq, Repr

/-- CsvToSlice (main.go lines 40-64).  len(records) < 1 is records = []. -/
def CsvToSlice (data : String) : Except CsvErr Table :=
  match readAll data with
  | .error e => .error (.readErr e)
  | .ok records =>
    match records with
    | [] => .error .noData
    | header :: rows => .ok (buildTable header rows)

/-! ## JSON values and the fragment of encoding/json used by ConnectAIModel

ConnectAIModel uses encoding/json in two ways: Decode of a 200 body into the
Response struct, and Unmarshal of a 503 body into map[string]interface
followed by a float64 type assertion on the "estimated_time" entry.  JSON
numbers are kept as a decimal mantissa/exponent pair (mantissa * 10 ^ exp10):
the program never computes with the numeric value (estimated_time only feeds
time.Sleep, which is real time and not modelled), so float64 rounding is
irrelevant; what matters is whether a field is a JSON number, and whether a
coordinate is an integer. -/

inductive Json where
  | null
  | bool (b : Bool)
  | num (mantissa : Int) (exp10 : Int)
  | str (s : String)
  | arr (elems : List Json)
  | obj (fields : List (String × Json))

/-- JSON whitespace skipping. -/
def skipWs : List Char → List Char
  | [] => []
  | c :: cs =>
    if c = ' ' ∨ c = '\t' ∨ c = '\n' ∨ c = '\r' then skipWs cs else c :: cs

/-- Consume an expected literal suffix of a keyword (null/true/false). -/
def expectLit : List Char → List Char → Option (List Char)
  | [], cs => some cs
  | _ :: _, [] => none
  | l :: ls, c :: cs2 => if c = l then expectLit ls cs2 else none

/-- Value of a hexadecimal digit. -/
def hexVal? (c : Char) : Option Nat :=
  if '0' ≤ c ∧ c ≤ '9' then some (c.toNat - '0'.toNat)
  else if 'a' ≤ c ∧ c ≤ 'f' then some (c.toNat - 'a'.toNat + 10)
  else if 'A' ≤ c ∧ c ≤ 'F' then some (c.toNat - 'A'.toNat + 10)
  else none

/-- Single-character string escapes of JSON. -/
def escChar? (e : Char) : Option Char :=
  if e = '"' then some '"'
  else if e = '\\' then some '\\'
  else if e = '/' then some '/'
  else if e = 'b' then some (Char.ofNat 8)
  else if e = 'f' then some (Char.ofNat 12)
  else if e = 'n' then some '\n'
  else if e = 'r' then some '\r'
  else if e = 't' then some '\t'
  else none

/-- Body of a JSON string literal, after the opening quote, up to and
including the closing quote.  Control characters below 0x20 are rejected,
unknown escapes are rejected.  encoding/json decodes UTF-16 surrogate
escapes in pairs; a surrogate half is modelled as U+FFFD without
pair-combining (no input examined here contains surrogate escapes). -/
def parseStringChars : Nat → List Char → Option (List Char × List Char)
  | 0, _ => none
  | _, [] => none
  | fuel+1, c :: rest =>
    if c = '"' then some ([], rest)
    else if c = '\\' then
      match rest with
      | [] => none
      | e :: rest2 =>
        if e = 'u' then
          match rest2 with
          | h1 :: h2 :: h3 :: h4 :: rest3 =>
            match hexVal? h1, hexVal? h2, hexVal? h3, hexVal? h4 with
            | some a, some b, some c2, some d =>
              let n := ((a * 16 + b) * 16 + c2) * 16 + d
              let ch := if 0xD800 ≤ n ∧ n < 0xE000 then Char.ofNat 0xFFFD else Char.ofNat n
              (parseStringChars fuel rest3).map (fun p => (ch :: p.1, p.2))
            | _, _, _, _ => none
          | _ => none
        else
          match escChar? e with
          | some ch => (parseStringChars fuel rest2).map (fun p => (ch :: p.1, p.2))
          | none => none
    else if c.toNat < 32 then none
    else (parseStringChars fuel rest).map (fun p => (c :: p.1, p.2))

/-- Take the maximal run of decimal digits. -/
def takeDigits : List Char → (List Char × List Char)
  | [] => ([], [])
  | c :: cs =>
    if c.isDigit then
      let p := takeDigits cs
      (c :: p.1, p.2)
    else ([], c :: cs)

/-- Numeric value of a digit run. -/
def digitsVal (ds : List Char) : Nat :=
  ds.foldl (fun n c => n * 10 + (c.toNat - '0'.toNat)) 0

/-- Assemble a JSON number from its sign, integer digits, fraction digits
and decimal exponent. -/
def mkNum (neg : Bool) (ds fs : List Char) (e : Int) : Json :=
  let m : Int := Int.ofNat (digitsVal (ds ++ fs))
  Json.num (if neg then -m else m) (e - Int.ofNat fs.length)

/-- Exponent digits after the e/E marker. -/
def parseExpDigits (neg : Bool) (ds fs : List Char) (cs : List Char) :
    Option (Json × List Char) :=
  let p := match cs with
    | '+' :: r => ((1 : Int), r)
    | '-' :: r => ((-1 : Int), r)
    | _ => ((1 : Int), cs)
  let q := takeDigits p.2
  if q.1.isEmpty then none
  else some (mkNum neg ds fs (p.1 * Int.ofNat (digitsVal q.1)), q.2)

/-- Optional exponent part of a JSON number. -/
def parseExpPart (neg : Bool) (ds fs : List Char) (cs : List Char) :
    Option (Json × List Char) :=
  match cs with
  | 'e' :: r => parseExpDigits neg ds fs r
  | 'E' :: r => parseExpDigits neg ds fs r
  | _ => some (mkNum neg ds fs 0, cs)

/-- A JSON number literal: -?(0|[1-9][0-9]*)(.[0-9]+)?([eE][+-]?[0-9]+)?. -/
def parseNumberLit (cs : List Char) : Option (Json × List Char) :=
  let p := match cs with
    | '-' :: r => (true, r)
    | _ => (false, cs)
  match p.2 with
  | [] => none
  | c :: _ =>
    if c.isDigit then
      let q := takeDigits p.2
      if 1 < q.1.length ∧ q.1.headD '0' = '0' then none
      else
        match q.2 with
        | '.' :: cs3 =>
          let f := takeDigits cs3
          if f.1.isEmpty then none else parseExpPart p.1 q.1 f.1 f.2
        | _ => parseExpPart p.1 q.1 [] q.2
    else none

/-- Parsing mode: a full value, the elements of an array after the first
bracket, or the members of an object after the first brace. -/
inductive PMode where
  | value
  | arrTail (acc : List Json)
  | objTail (acc : List (String × Json))

/-- Recursive-descent JSON reader (the fragment of the encoding/json scanner
and decoder relevant here).  Fuel decreases on every recursive call; the
top-level entry point supplies more fuel than any input of that length can
consume, and running out of fuel is a parse failure. -/
def parseCore : Nat → PMode → List Char → Option (Json × List Char)
  | 0, _, _ => none
  | fuel+1, .value, cs =>
    match skipWs cs with
    | [] => none
    | c :: rest =>
      if c = 'n' then (expectLit ['u', 'l', 'l'] rest).map (fun r => (Json.null, r))
      else if c = 't' then (expectLit ['r', 'u', 'e'] rest).map (fun r => (Json.bool true, r))
      else if c = 'f' then (expectLit ['a', 'l', 's', 'e'] rest).map (fun r => (Json.bool false, r))
      else if c = '"' then
        (parseStringChars (rest.length + 1) rest).map
          (fun p => (Json.str (String.mk p.1), p.2))
      else if c = '[' then
        match skipWs rest with
        | ']' :: r2 => some (Json.arr [], r2)
        | cs2 => parseCore fuel (.arrTail []) cs2
      else if c = '\x7b' then
        match skipWs rest with
        | '\x7d' :: r2 => some (Json.obj [], r2)
        | cs2 => parseCore fuel (.objTail []) cs2
      else if c = '-' ∨ c.isDigit then parseNumberLit (c :: rest)
      else none
  | fuel+1, .arrTail acc, cs =>
    match parseCore fuel .value cs with
    | none => none
    | some (v, cs1) =>
      match skipWs cs1 with
      | ',' :: cs2 => parseCore fuel (.arrTail (acc ++ [v])) cs2
      | ']' :: cs2 => some (Json.arr (acc ++ [v]), cs2)
      | _ => none
  | fuel+1, .objTail acc, cs =>
    match skipWs cs with
    | '"' :: cs1 =>
      match parseStringChars (cs1.length + 1) cs1 with
      | none => none
      | some (k, cs2) =>
        match skipWs cs2 with
        | ':' :: cs3 =>
          match parseCore fuel .value cs3 with
          | none => none
          | some (v, cs4) =>
            match skipWs cs4 with
            | ',' :: cs5 => parseCore fuel (.objTail (acc ++ [(String.mk k, v)])) cs5
            | '\x7d' :: cs5 => some (Json.obj (acc ++ [(String.mk k, v)]), cs5)
            | _ => none
        | _ => none
    | _ => none

/-- Read one JSON value from the front of a string. -/
def jsonParse? (s : String) : Option (Json × List Char) :=
  parseCore (2 * s.length + 4) .value s.data

/-- json.Unmarshal acceptance: the input must be exactly one JSON value
followed only by whitespace. -/
def unmarshalJson? (s : String) : Option Json :=
  match jsonParse? s with
  | some (v, rest) => if skipWs rest = [] then some v else none
  | none => none

/-- json.Decoder.Decode acceptance: the first JSON value on the stream is
read; anything after it is left unread and is not an error. -/
def decodeJsonValue? (s : String) : Option Json :=
  (jsonParse? s).map Prod.fst

/-- Go map built by Unmarshal into map[string]interface: later duplicate
keys overwrite earlier ones, so lookup returns the last binding. -/
def objGet (fields : List (String × Json)) (k : String) : Option Json :=
  match fields with
  | [] => none
  | (k0, v) :: rest =>
    match objGet rest k with
    | some v2 => some v2
    | none => if k0 = k then some v else none

/-- Unmarshal of a JSON number into a Go int: the value must be an integer
(a fractional part is "cannot unmarshal number into Go value of type int"). -/
def jsonInt? : Json → Option Int
  | .num m e =>
    if 0 ≤ e then some (m * (10 : Int) ^ e.toNat)
    else
      let d := (10 : Int) ^ (-e).toNat
      if m % d = 0 then some (m / d) else none
  | _ => none

/-! ## The Response struct and its decoding -/

/-- The Response struct of main.go (lines 32-37), with its json tags
answer, coordinates, cells, aggregator.  Go zero value: all fields empty. -/
structure Response where
  answer : String
  coordinates : List (List Int)
  cells : List String
  aggregator : String
deriving DecidableEq, Repr

/-- ASCII-style case folding used for struct field matching (the json tags
here are plain lowercase ASCII, for which Go's fold coincides with
lowercasing). -/
def lowerStr (s : String) : String :=
  String.mk (s.data.map Char.toLower)

/-- Unmarshal one JSON value into an element of the Go type []int (a row of
coordinates): null leaves the element at its zero value. -/
def decodeCoordEntry : Json → Except String Int
  | .null => .ok 0
  | j =>
    match jsonInt? j with
    | some n => .ok n
    | none => .error "json: cannot unmarshal value into Go value of type int"

/-- Unmarshal one JSON value into a Go []int: null yields the nil slice. -/
def decodeCoordRow : Json → Except String (List Int)
  | .null => .ok []
  | .arr ys => ys.mapM decodeCoordEntry
  | _ => .error "json: cannot unmarshal value into Go value of type []int"

/-- Unmarshal one JSON value into a Go string slice element. -/
def decodeCellEntry : Json → Except String String
  | .null => .ok ""
  | .str s => .ok s
  | _ => .error "json: cannot unmarshal value into Go value of type string"

/-- Apply one object member to the partially decoded Response, as
encoding/json does field by field in object order (later duplicates
overwrite; unknown keys are ignored; null never overwrites). -/
def applyRespField (r : Response) (k : String) (v : Json) : Except String Response :=
  let kl := lowerStr k
  if kl = "answer" then
    match v with
    | .str s => .ok { r with answer := s }
    | .null => .ok r
    | _ => .error "json: cannot unmarshal value into Go value of type string"
  else if kl = "coordinates" then
    match v with
    | .arr xs => (xs.mapM decodeCoordRow).map (fun cds => { r with coordinates := cds })
    | .null => .ok r
    | _ => .error "json: cannot unmarshal value into Go value of type [][]int"
  else if kl = "cells" then
    match v with
    | .arr xs => (xs.mapM decodeCellEntry).map (fun cs => { r with cells := cs })
    | .null => .ok r
    | _ => .error "json: cannot unmarshal value into Go value of type []string"
  else if kl = "aggregator" then
    match v with
    | .str s => .ok { r with aggregator := s }
    | .null => .ok r
    | _ => .error "json: cannot unmarshal value into Go value of type string"
  else .ok r

/-- Unmarshal a JSON value into the Response struct: the value must be an
object (or null, which leaves the zero value). -/
def decodeResponseJson : Json → Except String Response
  | .null => .ok ⟨"", [], [], ""⟩
  | .obj fields => fields.foldlM (fun r kv => applyRespField r kv.1 kv.2) ⟨"", [], [], ""⟩
  | _ => .error "json: cannot unmarshal value into Go value of type main.Response"

/-- Line 92 of main.go: json.NewDecoder(resp.Body).Decode(aiResponse). -/
def decodeResponse (body : String) : Except String Response :=
  match decodeJsonValue? body with
  | some j => decodeResponseJson j
  | none => .error "json: decode failure"

/-! ## ConnectAIModel: transport model and retry loop

The HTTP transport (c.Client.Do) is modelled as an oracle giving the outcome
of each attempt: attempt i either fails at the transport level with an error
string, or yields a response with a status code, a status line and a body.
A response body is a one-shot stream: in the 503 branch the code reads it in
full (line 100), so the second ReadAll at line 110 on that same stream
returns empty bytes; this is reflected in connFailMsg.  time.Sleep waits
real time and is not modelled (the slept duration never influences the
control flow or any returned value). -/

/-- A decoded HTTP response: resp.StatusCode, resp.Status, and the body
bytes as first read from the stream. -/
structure HttpResponse where
  statusCode : Nat
  status : String
  body : String
deriving DecidableEq, Repr

/-- Outcome of one c.Client.Do call. -/
inductive DoResult where
  | failure (err : String)
  | success (resp : HttpResponse)

/-- Lines 98-108 of main.go: on a 503, Unmarshal the body into a map and
look for an "estimated_time" entry that type-asserts to float64 (any JSON
number).  some means the attempt is retried; none falls through to the
generic failure. -/
def retryInfo (resp : HttpResponse) : Option (Int × Int) :=
  if resp.statusCode = 503 then
    match unmarshalJson? resp.body with
    | some (Json.obj fields) =>
      match objGet fields "estimated_time" with
      | some (Json.num m e) => some (m, e)
      | _ => none
    | _ => none
  else none

/-- Lines 110-111 of main.go: the generic failure message.  When the status
is 503 the body stream was already consumed at line 100, so the ReadAll at
line 110 yields empty bytes and the reported response text is empty. -/
def connFailMsg (resp : HttpResponse) : String :=
  "failed to connect to AI model, status: " ++ resp.status ++ ", response: " ++
    (if resp.statusCode = 503 then "" else resp.body)

/-- The retry loop of ConnectAIModel (lines 82-114): i is the attempt index,
the second argument the remaining attempts.  Returns the result together
with the number of c.Client.Do calls performed. -/
def connectLoop (transport : Nat → DoResult) : Nat → Nat → Except String Response × Nat
  | _, 0 => (.error "max retries reached, failed to connect to AI model", 0)
  | i, fuel+1 =>
    match transport i with
    | .failure e => (.error e, 1)
    | .success resp =>
      if resp.statusCode = 200 then
        match decodeResponse resp.body with
        | .ok r => (.ok r, 1)
        | .error e => (.error e, 1)
      else
        match retryInfo resp with
        | some _ =>
          let p := connectLoop transport (i + 1) fuel
          (p.1, p.2 + 1)
        | none => (.error (connFailMsg resp), 1)

/-- maxRetries := 10 (line 82). -/
def maxRetries : Nat := 10

/-- The Inputs struct of main.go (lines 26-29). -/
structure Inputs where
  table : Table
  query : String

/-- ConnectAIModel (lines 67-115).  json.Marshal of the payload and
http.NewRequest on the fixed URL cannot fail for this payload type and are
not modelled; the payload and token only shape the request handed to the
transport oracle. -/
def ConnectAIModel (transport : Nat → DoResult) (_payload : Inputs)
    (_token : String) : Except String Response × Nat :=
  connectLoop transport 0 maxRetries

/-! ## The POST /query handler (lines 174-200) -/

/-- What the handler renders: index.html with an error and an HTTP status,
or index.html with the query and the decoded response fields. -/
inductive PageView where
  | errorPage (httpStatus : Nat) (msg : String)
  | answerPage (query : String) (resp : Response)

/-- The POST /query handler body: an empty query form field renders a 400
error page without contacting the model; otherwise ConnectAIModel is called
and its error (status 500) or response (status 200) is rendered.  The second
component counts the HTTP requests issued to the remote model. -/
def handleQuery (table : Table) (token : String) (transport : Nat → DoResult)
    (query : String) : PageView × Nat :=
  if query = "" then (.errorPage 400 "Query cannot be empty", 0)
  else
    match ConnectAIModel transport ⟨table, query⟩ token with
    | (.ok r, n) => (.answerPage query r, n)
    | (.error e, n) => (.errorPage 500 ("Error connecting to AI model: " ++ e), n)

/-- Code-point (equivalently UTF-8 byte) lexicographic order on character
lists: the order in which encoding/json sorts the keys of a marshalled map. -/
def charListLe : List Char → List Char → Bool
  | [], _ => true
  | _ :: _, [] => false
  | a :: as, b :: bs =>
    if a.toNat < b.toNat then true
    else if b.toNat < a.toNat then false
    else charListLe as bs

/-- The marshalling order on strings. -/
def strLe (a b : String) : Bool := charListLe a.data b.data

/-- The key order in which encoding/json serialises a Go map (json.Marshal
sorts map keys): the program's only enumeration of the table's columns, used
when the payload is marshalled at line 69. -/
def marshalTableKeys (t : Table) : List String :=
  (tableKeys t).insertionSort (fun a b => strLe a b = true)

/-- The index of the last (highest-index) occurrence of c in hdr, offset by
i: the header position whose column survives the duplicate-overwriting
assignments of the header loop. -/
def lastIdxFrom (i : Nat) (hdr : List String) (c : String) : Option Nat :=
  match hdr with
  | [] => none
  | h :: t =>
    match lastIdxFrom (i + 1) t c with
    | some j => some j
    | none => if h = c then some i else none

/-- A 503 cold-start response whose JSON body carries estimated_time 0.0,
the "model is loading" shape the retry loop waits out. -/
def loading503 : HttpResponse :=
  ⟨503, "503 Service Unavailable", "\x7b\"estimated_time\": 0.0\x7d"⟩

/-- A 503 response whose valid JSON body has no estimated_time field. -/
def noEstimate503 : HttpResponse :=
  ⟨503, "503 Service Unavailable", "\x7b\"error\":\"Internal Server Error\"\x7d"⟩

/-- A 200 response whose body has the expected Response shape. -/
def ok200 : HttpResponse :=
  ⟨200, "200 OK",
    "\x7b\"answer\":\"42\",\"coordinates\":[[0,1]],\"cells\":[\"42\"],\"aggregator\":\"NONE\"\x7d"⟩

/-- A response is HTTP 503 and carries a JSON body whose estimated_time is
the float 0.0 (a JSON number of value zero): the cold-start shape with a
zero wait that the retry loop waits out. -/
def IsLoadingZero (r : HttpResponse) : Prop :=
  r.statusCode = 503 ∧ ∃ e, retryInfo r = some (0, e)

/-! ## Lemmas about the table construction -/

theorem charListLe_total (a b : List Char) : charListLe a b = true ∨ charListLe b a = true := by
  induction a generalizing b with
  | nil => left; rfl
  | cons x xs ih =>
    cases b with
    | nil => right; rfl
    | cons y ys =>
      by_cases h1 : x.toNat < y.toNat
      · left; simp [charListLe, h1]
      · by_cases h2 : y.toNat < x.toNat
        · right; simp [charListLe, h2]
        · rcases ih ys with h | h
          · left; simp [charListLe, h1, h2, h]
          · right; simp [charListLe, h1, h2, h]

theorem charListLe_trans (a b c : List Char) (hab : charListLe a b = true)
    (hbc : charListLe b c = true) : charListLe a c = true := by
  induction a generalizing b c with
  | nil => rfl
  | cons x xs ih =>
    cases b with
    | nil => simp [charListLe] at hab
    | cons y ys =>
      cases c with
      | nil => simp [charListLe] at hbc
      | cons z zs =>
        simp only [charListLe] at hab hbc ⊢
        split_ifs at hab hbc ⊢ <;>
          first
            | rfl
            | omega
            | (exfalso; omega)
            | exact ih ys zs hab hbc

instance : IsTotal String (fun a b => strLe a b = true) :=
  ⟨fun a b => charListLe_total a.data b.data⟩

instance : IsTrans String (fun a b => strLe a b = true) :=
  ⟨fun a b c => charListLe_trans a.data b.data c.data⟩

theorem mapGet_mapSet (m : Table) (k k2 : String) (v : List String) :
    mapGet (mapSet m k v) k2 = if k = k2 then some v else mapGet m k2 := by
  induction m with
  | nil => simp [mapSet, mapGet]
  | cons p rest ih =>
    obtain ⟨k0, v0⟩ := p
    by_cases h : k0 = k <;> by_cases h2 : k0 = k2 <;> by_cases h3 : k = k2 <;>
      simp_all [mapSet, mapGet]

theorem tableKeys_mapSet (m : Table) (k : String) (v : List String) (c : String) :
    c ∈ tableKeys (mapSet m k v) ↔ c = k ∨ c ∈ tableKeys m := by
  induction m with
  | nil => simp [mapSet, tableKeys]
  | cons p rest ih =>
    obtain ⟨k0, v0⟩ := p
    by_cases h : k0 = k <;> simp_all [mapSet, tableKeys] <;> tauto

theorem tableKeys_mapSet_nodup (m : Table) (k : String) (v : List String)
    (h : (tableKeys m).Nodup) : (tableKeys (mapSet m k v)).Nodup := by
  induction m with
  | nil => simp [mapSet, tableKeys]
  | cons p rest ih =>
    obtain ⟨k0, v0⟩ := p
    simp only [tableKeys, List.map_cons, List.nodup_cons] at h
    by_cases hk : k0 = k
    · subst hk
      simpa [mapSet, tableKeys] using h
    · have h2 := ih h.2
      simp only [mapSet, hk, if_false, tableKeys, List.map_cons, List.nodup_cons]
      refine ⟨?_, h2⟩
      intro hmem
      rcases (tableKeys_mapSet rest k v k0).mp hmem with h3 | h3
      · exact hk h3
      · exact h.1 h3

theorem mapGet_buildTableAux (hdr : List String) (i : Nat) (rows : List (List String))
    (acc : Table) (c : String) :
    mapGet (buildTableAux i hdr rows acc) c =
      match lastIdxFrom i hdr c with
      | some j => some (colValues j rows)
      | none => mapGet acc c := by
  induction hdr generalizing i acc with
  | nil => simp [buildTableAux, lastIdxFrom]
  | cons h t ih =>
    simp only [buildTableAux, lastIdxFrom]
    rw [ih]
    cases hlast : lastIdxFrom (i + 1) t c with
    | some j => simp
    | none =>
      rw [mapGet_mapSet]
      by_cases hc : h = c <;> simp [hc]

theorem tableKeys_buildTableAux (hdr : List String) (i : Nat) (rows : List (List String))
    (acc : Table) (c : String) :
    c ∈ tableKeys (buildTableAux i hdr rows acc) ↔ c ∈ hdr ∨ c ∈ tableKeys acc := by
  induction hdr generalizing i acc with
  | nil => simp [buildTableAux]
  | cons h t ih =>
    simp only [buildTableAux, List.mem_cons]
    rw [ih, tableKeys_mapSet]
    tauto

theorem tableKeys_buildTableAux_nodup (hdr : List String) (i : Nat)
    (rows : List (List String)) (acc : Table) (h : (tableKeys acc).Nodup) :
    (tableKeys (buildTableAux i hdr rows acc)).Nodup := by
  induction hdr generalizing i acc with
  | nil => exact h
  | cons h0 t ih =>
    exact ih (i + 1) _ (tableKeys_mapSet_nodup acc h0 (colValues i rows) h)

theorem lastIdxFrom_eq_none (hdr : List String) (c : String) (i : Nat) :
    lastIdxFrom i hdr c = none ↔ c ∉ hdr := by
  induction hdr generalizing i with
  | nil => simp [lastIdxFrom]
  | cons h t ih =>
    simp only [lastIdxFrom, List.mem_cons]
    cases hlast : lastIdxFrom (i + 1) t c with
    | some j =>
      have : c ∈ t := by
        by_contra hc
        rw [← ih (i + 1)] at hc
        rw [hc] at hlast
        cases hlast
      simp [this]
    | none =>
      have hct : c ∉ t := (ih (i + 1)).mp hlast
      by_cases hc : h = c <;> simp [hc, hct]
      exact fun hcc => hc hcc.symm

theorem getD_mem_of_lt (l : List String) (n : Nat) (h : n < l.length) :
    l.getD n "" ∈ l := by
  rw [List.getD_eq_getElem?_getD, List.getElem?_eq_getElem h, Option.getD_some]
  exact List.getElem_mem h

theorem lastIdxFrom_spec (hdr : List String) (c : String) (i j : Nat)
    (h : lastIdxFrom i hdr c = some j) :
    ∃ k, j = i + k ∧ k < hdr.length ∧ hdr.getD k "" = c ∧
      ∀ m, m < hdr.length → hdr.getD m "" = c → m ≤ k := by
  induction hdr generalizing i j with
  | nil => cases h
  | cons h0 t ih =>
    simp only [lastIdxFrom] at h
    cases hlast : lastIdxFrom (i + 1) t c with
    | some j0 =>
      rw [hlast] at h
      injection h with hj
      subst hj
      obtain ⟨k, hk1, hk2, hk3, hk4⟩ := ih (i + 1) j0 hlast
      refine ⟨k + 1, by omega, by simpa using hk2, by simpa using hk3, ?_⟩
      intro m hm hmc
      cases m with
      | zero => omega
      | succ m0 =>
        have := hk4 m0 (by simpa using hm) (by simpa using hmc)
        omega
    | none =>
      rw [hlast] at h
      have hct : c ∉ t := (lastIdxFrom_eq_none t c (i + 1)).mp hlast
      by_cases hc : h0 = c
      · rw [if_pos hc] at h
        cases h
        refine ⟨0, by omega, by simp, by simpa using hc, ?_⟩
        intro m hm hmc
        cases m with
        | zero => omega
        | succ m0 =>
          exfalso
          apply hct
          have hm0 : m0 < t.length := by simpa using hm
          have : t.getD m0 "" = c := by simpa using hmc
          rw [← this]
          exact getD_mem_of_lt t m0 hm0
      · rw [if_neg hc] at h
        cases h

theorem lastIdxFrom_isSome (hdr : List String) (c : String) (i : Nat) (h : c ∈ hdr) :
    ∃ j, lastIdxFrom i hdr c = some j := by
  cases hlast : lastIdxFrom i hdr c with
  | some j => exact ⟨j, rfl⟩
  | none => exact absurd ((lastIdxFrom_eq_none hdr c i).mp hlast) (by simpa using h)

/-! ## Lemmas about readAll: a successful parse is rectangular -/

theorem readAllLoop_ok (fuel : Nat) (cs : List Char) (n : Nat)
    (acc recs : List (List String))
    (h : readAllLoop fuel cs (some n) acc = .ok recs) :
    ∃ tl, recs = acc ++ tl ∧ ∀ r ∈ tl, r.length = n := by
  induction fuel generalizing cs acc with
  | zero => simp [readAllLoop] at h
  | succ fuel ih =>
    rw [readAllLoop] at h
    cases hr : readRecord (cs.length + 1) cs with
    | error e => rw [hr] at h; cases h
    | ok o =>
      rw [hr] at h
      cases o with
      | none =>
        refine ⟨[], ?_, by simp⟩
        cases h
        simp
      | some pr =>
        obtain ⟨rec, rest⟩ := pr
        simp only at h
        by_cases hl : rec.length = n
        · rw [if_pos hl] at h
          obtain ⟨tl, htl1, htl2⟩ := ih rest (acc ++ [rec]) h
          refine ⟨rec :: tl, by simpa using htl1, ?_⟩
          intro r hrr
          rcases List.mem_cons.mp hrr with hrr2 | hrr2
          · exact hrr2 ▸ hl
          · exact htl2 r hrr2
        · rw [if_neg hl] at h
          cases h

theorem readAll_rect (s : String) (h0 : List String) (rows : List (List String))
    (h : readAll s = .ok (h0 :: rows)) : ∀ r ∈ rows, r.length = h0.length := by
  rw [readAll, readAllLoop] at h
  cases hr : readRecord (s.data.length + 1) s.data with
  | error e => rw [hr] at h; cases h
  | ok o =>
    rw [hr] at h
    cases o with
    | none => cases h
    | some pr =>
      obtain ⟨rec, rest⟩ := pr
      simp only at h
      obtain ⟨tl, htl1, htl2⟩ := readAllLoop_ok s.length rest rec.length [rec] (h0 :: rows) h
      have hcons : h0 :: rows = rec :: tl := by simpa using htl1
      injection hcons with hh ht
      subst hh
      subst ht
      intro r hrr
      exact htl2 r hrr

/-! ## Lemmas about colValues -/

theorem colValues_length (j : Nat) (rows : List (List String)) :
    (colValues j rows).length =
      (rows.filter (fun r => decide (j < r.length))).length := by
  induction rows with
  | nil => rfl
  | cons r rs ih =>
    by_cases h : j < r.length
    · rw [colValues, List.filterMap_cons, List.getElem?_eq_getElem h]
      simp only [List.filter_cons, decide_eq_true h]
      simpa [colValues] using ih
    · rw [colValues, List.filterMap_cons, List.getElem?_eq_none (by omega)]
      simp only [List.filter_cons]
      rw [show decide (j < r.length) = false from by simpa using h]
      simpa [colValues] using ih

theorem colValues_of_rect (j : Nat) (rows : List (List String))
    (h : ∀ r ∈ rows, j < r.length) :
    colValues j rows = rows.map (fun r => r.getD j "") := by
  induction rows with
  | nil => rfl
  | cons r rs ih =>
    have hj : j < r.length := h r (by simp)
    rw [colValues, List.filterMap_cons, List.getElem?_eq_getElem hj, List.map_cons]
    rw [List.getD_eq_getElem?_getD, List.getElem?_eq_getElem hj, Option.getD_some]
    have := ih (fun r2 hr2 => h r2 (by simp [hr2]))
    rw [colValues] at this
    rw [this]

/-! ## Lemmas about the CsvToSlice wrapper -/

theorem CsvToSlice_ok (s : String) (header : List String) (rows : List (List String))
    (h : readAll s = .ok (header :: rows)) :
    CsvToSlice s = .ok (buildTable header rows) := by
  rw [CsvToSlice, h]

theorem filter_key_singleton (t : Table) (c : String)
    (hn : (tableKeys t).Nodup) (hc : c ∈ tableKeys t) :
    (t.filter (fun p => p.1 == c)).length = 1 := by
  induction t with
  | nil => simp [tableKeys] at hc
  | cons p rest ih =>
    obtain ⟨k0, v0⟩ := p
    simp only [tableKeys, List.map_cons, List.nodup_cons] at hn
    by_cases h : k0 = c
    · subst h
      rw [List.filter_cons_of_pos (by simp)]
      have : rest.filter (fun p => p.1 == k0) = [] := by
        rw [List.filter_eq_nil_iff]
        intro p hp
        simp only [beq_iff_eq]
        intro hpk
        exact hn.1 (hpk ▸ List.mem_map_of_mem Prod.fst hp)
      simp [this]
    · rw [List.filter_cons_of_neg (by simpa using h)]
      refine ih hn.2 ?_
      have hck : tableKeys ((k0, v0) :: rest) = k0 :: tableKeys rest := rfl
      rw [hck] at hc
      rcases List.mem_cons.mp hc with h1 | h1
      · exact absurd h1.symm h
      · exact h1

/-! ## Step lemmas for the retry loop -/

theorem connectLoop_fail_step (transport : Nat → DoResult) (i fuel : Nat) (e : String)
    (h : transport i = .failure e) :
    connectLoop transport i (fuel + 1) = (.error e, 1) := by
  rw [connectLoop, h]

theorem connectLoop_ok_step (transport : Nat → DoResult) (i fuel : Nat)
    (resp : HttpResponse) (res : Response)
    (h : transport i = .success resp) (h200 : resp.statusCode = 200)
    (hd : decodeResponse resp.body = .ok res) :
    connectLoop transport i (fuel + 1) = (.ok res, 1) := by
  rw [connectLoop, h]
  simp [h200, hd]

theorem connectLoop_retry_step (transport : Nat → DoResult) (i fuel : Nat)
    (resp : HttpResponse) (q : Int × Int)
    (h : transport i = .success resp) (h200 : resp.statusCode ≠ 200)
    (hri : retryInfo resp = some q) :
    connectLoop transport i (fuel + 1) =
      ((connectLoop transport (i + 1) fuel).1,
        (connectLoop transport (i + 1) fuel).2 + 1) := by
  rw [connectLoop, h]
  simp [h200, hri]

theorem connectLoop_generic_fail_step (transport : Nat → DoResult) (i fuel : Nat)
    (resp : HttpResponse)
    (h : transport i = .success resp) (h200 : resp.statusCode ≠ 200)
    (hri : retryInfo resp = none) :
    connectLoop transport i (fuel + 1) = (.error (connFailMsg resp), 1) := by
  rw [connectLoop, h]
  simp [h200, hri]

theorem retryInfo_loading503 : retryInfo loading503 = some (0, -1) := rfl

theorem loading503_isLoadingZero : IsLoadingZero loading503 :=
  ⟨rfl, -1, retryInfo_loading503⟩

theorem connectLoop_all_retryable (transport : Nat → DoResult) (fuel i : Nat)
    (h : ∀ j, j < fuel → ∃ resp, transport (i + j) = .success resp ∧
      resp.statusCode ≠ 200 ∧ ∃ q, retryInfo resp = some q) :
    connectLoop transport i fuel =
      (.error "max retries reached, failed to connect to AI model", fuel) := by
  induction fuel generalizing i with
  | zero => rfl
  | succ fuel ih =>
    obtain ⟨resp, ht, hne, q, hq⟩ := h 0 (by omega)
    rw [Nat.add_zero] at ht
    rw [connectLoop_retry_step transport i fuel resp q ht hne hq]
    have hsh : ∀ j, j < fuel → ∃ resp2, transport (i + 1 + j) = .success resp2 ∧
        resp2.statusCode ≠ 200 ∧ ∃ q2, retryInfo resp2 = some q2 := by
      intro j hj
      obtain ⟨resp2, ht2, hne2, q2, hq2⟩ := h (j + 1) (by omega)
      rw [show i + (j + 1) = i + 1 + j from by omega] at ht2
      exact ⟨resp2, ht2, hne2, q2, hq2⟩
    rw [ih (i + 1) hsh]

theorem connectLoop_fail_at (transport : Nat → DoResult) (e : String) (m : Nat) :
    ∀ fuel i, m < fuel →
      (∀ j, j < m → ∃ resp, transport (i + j) = .success resp ∧
        resp.statusCode ≠ 200 ∧ ∃ q, retryInfo resp = some q) →
      transport (i + m) = .failure e →
      connectLoop transport i fuel = (.error e, m + 1) := by
  induction m with
  | zero =>
    intro fuel i hm hprev hf
    cases fuel with
    | zero => omega
    | succ fuel =>
      exact connectLoop_fail_step transport i fuel e (by simpa using hf)
  | succ m ih =>
    intro fuel i hm hprev hf
    cases fuel with
    | zero => omega
    | succ fuel =>
      obtain ⟨resp, ht, hne, q, hq⟩ := hprev 0 (by omega)
      rw [Nat.add_zero] at ht
      rw [connectLoop_retry_step transport i fuel resp q ht hne hq]
      have hsh : ∀ j, j < m → ∃ resp2, transport (i + 1 + j) = .success resp2 ∧
          resp2.statusCode ≠ 200 ∧ ∃ q2, retryInfo resp2 = some q2 := by
        intro j hj
        obtain ⟨resp2, ht2, hne2, q2, hq2⟩ := hprev (j + 1) (by omega)
        rw [show i + (j + 1) = i + 1 + j from by omega] at ht2
        exact ⟨resp2, ht2, hne2, q2, hq2⟩
      have hf2 : transport (i + 1 + m) = .failure e := by
        rwa [show i + (m + 1) = i + 1 + m from by omega] at hf
      rw [ih fuel (i + 1) (by omega) hsh hf2]

theorem isLoadingZero_retryable (r : HttpResponse) (h : IsLoadingZero r) :
    r.statusCode ≠ 200 ∧ ∃ q, retryInfo r = some q := by
  obtain ⟨h503, e, he⟩ := h
  refine ⟨by rw [h503]; decide, (0, e), he⟩

/-! ## The claims -/

/-- C1 counterexample: the claim says a data row with fewer fields than the
header parses without error, but csv.Reader (FieldsPerRecord 0) rejects the
short row with ErrFieldCount, so CsvToSlice returns an error on the input
with header a,b,c and data row 1,2. -/
theorem claim_C1_counterexample :
    CsvToSlice "a,b,c\n1,2\n" = .error (.readErr .fieldCount) := rfl

/-- C1 amended: a data row with a field count differing from the header's
makes the CSV reader fail with a field-count error, so whenever CsvToSlice
succeeds every data row has exactly the header's field count — no silent
truncation of short rows ever happens. -/
theorem claim_C1_amended (s : String) (header : List String) (rows : List (List String))
    (hread : readAll s = .ok (header :: rows)) :
    CsvToSlice s = .ok (buildTable header rows) ∧
      ∀ r ∈ rows, r.length = header.length :=
  ⟨CsvToSlice_ok s header rows hread, readAll_rect s header rows hread⟩

/-- Witness for the amended C1 at a concrete rectangular input. -/
theorem claim_C1_amended_witness :
    CsvToSlice "a,b\n1,2\n" = .ok (buildTable ["a", "b"] [["1", "2"]]) ∧
      ∀ r ∈ [["1", "2"]], r.length = (["a", "b"] : List String).length :=
  claim_C1_amended "a,b\n1,2\n" ["a", "b"] [["1", "2"]] rfl

/-- C7: on input whose CSV parse yields zero records (no header row at all),
CsvToSlice fails with the no-data error instead of returning a table. -/
theorem claim_C7 (s : String) (h : readAll s = .ok []) :
    CsvToSlice s = .error .noData := by
  rw [CsvToSlice, h]

/-- Witness for C7 at the empty input. -/
theorem claim_C7_witness :
    readAll "" = .ok [] ∧ CsvToSlice "" = Except.error CsvErr.noData :=
  ⟨rfl, claim_C7 "" rfl⟩

/-- C6: on any text the CSV reader accepts with header and data rows,
CsvToSlice returns a table whose key set is exactly the header's names
(without duplicates), and every header position's name maps to the cells of
a position carrying that name, kept verbatim, with length equal to the
number of data rows containing that column index. -/
theorem claim_C6 (s : String) (header : List String) (rows : List (List String))
    (hread : readAll s = .ok (header :: rows)) :
    ∃ t, CsvToSlice s = .ok t ∧
      (tableKeys t).Nodup ∧
      (∀ c, c ∈ tableKeys t ↔ c ∈ header) ∧
      ∀ j, j < header.length → ∃ j2 l, j2 < header.length ∧
        header.getD j2 "" = header.getD j "" ∧
        mapGet t (header.getD j "") = some l ∧
        l = rows.map (fun r => r.getD j2 "") ∧
        l.length = (rows.filter (fun r => decide (j < r.length))).length := by
  refine ⟨buildTable header rows, CsvToSlice_ok s header rows hread, ?_, ?_, ?_⟩
  · exact tableKeys_buildTableAux_nodup header 0 rows [] (by simp [tableKeys])
  · intro c
    rw [buildTable, tableKeys_buildTableAux]
    simp [tableKeys]
  · intro j hj
    have hrect := readAll_rect s header rows hread
    have hcmem : header.getD j "" ∈ header := getD_mem_of_lt header j hj
    obtain ⟨j2, hj2⟩ := lastIdxFrom_isSome header (header.getD j "") 0 hcmem
    obtain ⟨k, hk1, hk2, hk3, hk4⟩ := lastIdxFrom_spec header (header.getD j "") 0 j2 hj2
    refine ⟨j2, colValues j2 rows, by omega, ?_, ?_, ?_, ?_⟩
    · rw [show j2 = k from by omega]
      exact hk3
    · rw [buildTable, mapGet_buildTableAux, hj2]
    · refine colValues_of_rect j2 rows ?_
      intro r hr
      rw [hrect r hr]
      omega
    · rw [colValues_length]
      have hall1 : rows.filter (fun r => decide (j2 < r.length)) = rows := by
        rw [List.filter_eq_self]
        intro r hr
        simp only [decide_eq_true_eq]
        rw [hrect r hr]
        omega
      have hall2 : rows.filter (fun r => decide (j < r.length)) = rows := by
        rw [List.filter_eq_self]
        intro r hr
        simp only [decide_eq_true_eq]
        rw [hrect r hr]
        omega
      rw [hall1, hall2]

/-- Witness for C6 at a concrete two-column, two-row input. -/
theorem claim_C6_witness :
    ∃ t, CsvToSlice "a,b\n1,2\n3,4\n" = .ok t ∧
      (tableKeys t).Nodup ∧
      (∀ c, c ∈ tableKeys t ↔ c ∈ ["a", "b"]) ∧
      ∀ j, j < (["a", "b"] : List String).length → ∃ j2 l,
        j2 < (["a", "b"] : List String).length ∧
        (["a", "b"] : List String).getD j2 "" = (["a", "b"] : List String).getD j "" ∧
        mapGet t ((["a", "b"] : List String).getD j "") = some l ∧
        l = [["1", "2"], ["3", "4"]].map (fun r => r.getD j2 "") ∧
        l.length = ([["1", "2"], ["3", "4"]].filter
          (fun r => decide (j < r.length))).length :=
  claim_C6 "a,b\n1,2\n3,4\n" ["a", "b"] [["1", "2"], ["3", "4"]] rfl

/-- C8 counterexample: on header b,a the table's only enumeration performed
by the program (json.Marshal of the payload, which sorts map keys) lists the
columns as a,b — not the header insertion order b,a.  Go map iteration order
is unspecified, so "enumerate in header order" fails. -/
theorem claim_C8_counterexample :
    CsvToSlice "b,a\n1,2\n" = .ok [("b", ["1"]), ("a", ["2"])] ∧
      marshalTableKeys [("b", ["1"]), ("a", ["2"])] = ["a", "b"] ∧
      (["a", "b"] : List String) ≠ ["b", "a"] :=
  ⟨rfl, rfl, by decide⟩

/-- C8 amended: the table's keys are unique and are exactly the header
names, but the map is unordered; the enumeration the program performs when
marshalling the payload lists the keys in lexicographic (sorted) order, not
header order. -/
theorem claim_C8_amended (s : String) (header : List String) (rows : List (List String))
    (hread : readAll s = .ok (header :: rows)) :
    ∃ t, CsvToSlice s = .ok t ∧ (tableKeys t).Nodup ∧
      (∀ c, c ∈ marshalTableKeys t ↔ c ∈ header) ∧
      List.Pairwise (fun a b => strLe a b = true) (marshalTableKeys t) := by
  refine ⟨buildTable header rows, CsvToSlice_ok s header rows hread,
    tableKeys_buildTableAux_nodup header 0 rows [] (by simp [tableKeys]), ?_, ?_⟩
  · intro c
    rw [marshalTableKeys, (List.perm_insertionSort _ _).mem_iff, buildTable,
      tableKeys_buildTableAux]
    simp [tableKeys]
  · exact List.sorted_insertionSort _ _

/-- Witness for the amended C8. -/
theorem claim_C8_amended_witness :
    ∃ t, CsvToSlice "b,a\n1,2\n" = .ok t ∧ (tableKeys t).Nodup ∧
      (∀ c, c ∈ marshalTableKeys t ↔ c ∈ ["b", "a"]) ∧
      List.Pairwise (fun a b => strLe a b = true) (marshalTableKeys t) :=
  claim_C8_amended "b,a\n1,2\n" ["b", "a"] [["1", "2"]] rfl

/-- C10: when a name occurs at several header positions, the table holds a
single entry for it, whose values are the column of the last (highest-index)
occurrence of that name, since the header loop's later map assignments
overwrite earlier ones. -/
theorem claim_C10 (s : String) (header : List String) (rows : List (List String))
    (c : String) (i j : Nat) (hread : readAll s = .ok (header :: rows))
    (hij : i < j) (hj : j < header.length)
    (hci : header.getD i "" = c) (hcj : header.getD j "" = c) :
    ∃ t jl, CsvToSlice s = .ok t ∧
      (t.filter (fun p => p.1 == c)).length = 1 ∧
      j ≤ jl ∧ jl < header.length ∧ header.getD jl "" = c ∧
      (∀ m, m < header.length → header.getD m "" = c → m ≤ jl) ∧
      mapGet t c = some (colValues jl rows) := by
  have hcmem : c ∈ header := hcj ▸ getD_mem_of_lt header j hj
  obtain ⟨jl, hjl⟩ := lastIdxFrom_isSome header c 0 hcmem
  obtain ⟨k, hk1, hk2, hk3, hk4⟩ := lastIdxFrom_spec header c 0 jl hjl
  have hkj : jl = k := by omega
  refine ⟨buildTable header rows, jl, CsvToSlice_ok s header rows hread,
    ?_, ?_, by omega, ?_, ?_, ?_⟩
  · apply filter_key_singleton
    · exact tableKeys_buildTableAux_nodup header 0 rows [] (by simp [tableKeys])
    · rw [buildTable, tableKeys_buildTableAux]
      simp [hcmem]
  · rw [hkj]
    exact hk4 j hj hcj
  · rw [hkj]
    exact hk3
  · intro m hm hmc
    rw [hkj]
    exact hk4 m hm hmc
  · rw [buildTable, mapGet_buildTableAux, hjl]

/-- Witness for C10: header a,b,a; the single a entry holds the third
column's values. -/
theorem claim_C10_witness :
    ∃ t jl, CsvToSlice "a,b,a\n1,2,3\n" = .ok t ∧
      (t.filter (fun p => p.1 == "a")).length = 1 ∧
      2 ≤ jl ∧ jl < (["a", "b", "a"] : List String).length ∧
      (["a", "b", "a"] : List String).getD jl "" = "a" ∧
      (∀ m, m < (["a", "b", "a"] : List String).length →
        (["a", "b", "a"] : List String).getD m "" = "a" → m ≤ jl) ∧
      mapGet t "a" = some (colValues jl [["1", "2", "3"]]) :=
  claim_C10 "a,b,a\n1,2,3\n" ["a", "b", "a"] [["1", "2", "3"]] "a" 0 2 rfl
    (by omega) (by decide) rfl rfl

/-- C3: when every attempt yields a 503 whose JSON body carries
estimated_time 0.0, the loop performs exactly maxRetries = 10 requests and
then fails with the retry-exhausted error, never returning a decoded
result. -/
theorem claim_C3 (transport : Nat → DoResult) (payload : Inputs) (token : String)
    (h : ∀ i, i < 10 → ∃ resp, transport i = .success resp ∧ IsLoadingZero resp) :
    ConnectAIModel transport payload token =
      (.error "max retries reached, failed to connect to AI model", 10) := by
  show connectLoop transport 0 maxRetries = _
  refine connectLoop_all_retryable transport maxRetries 0 ?_
  intro j hj
  obtain ⟨resp, ht, hl⟩ := h j hj
  obtain ⟨hne, q, hq⟩ := isLoadingZero_retryable resp hl
  exact ⟨resp, by simpa using ht, hne, q, hq⟩

/-- Witness for C3: the constant always-loading transport. -/
theorem claim_C3_witness :
    ConnectAIModel (fun _ => .success loading503) ⟨[], ""⟩ "" =
      (.error "max retries reached, failed to connect to AI model", 10) :=
  claim_C3 (fun _ => .success loading503) ⟨[], ""⟩ ""
    (fun _ _ => ⟨loading503, rfl, loading503_isLoadingZero⟩)

/-- C4: a first attempt answered 503 with estimated_time 0.0 and a second
answered 200 with a body decoding to r make ConnectAIModel return r after
exactly one retry, i.e. two requests in total. -/
theorem claim_C4 (transport : Nat → DoResult) (payload : Inputs) (token : String)
    (resp0 resp1 : HttpResponse) (r : Response)
    (h0 : transport 0 = .success resp0) (hl : IsLoadingZero resp0)
    (h1 : transport 1 = .success resp1) (h200 : resp1.statusCode = 200)
    (hd : decodeResponse resp1.body = .ok r) :
    ConnectAIModel transport payload token = (.ok r, 2) := by
  obtain ⟨hne, q, hq⟩ := isLoadingZero_retryable resp0 hl
  have hstep : connectLoop transport 0 10 =
      ((connectLoop transport 1 9).1, (connectLoop transport 1 9).2 + 1) :=
    connectLoop_retry_step transport 0 9 resp0 q h0 hne hq
  have hok : connectLoop transport 1 9 = (.ok r, 1) :=
    connectLoop_ok_step transport 1 8 resp1 r h1 h200 hd
  show connectLoop transport 0 maxRetries = _
  rw [show maxRetries = 10 from rfl, hstep, hok]

/-- Witness for C4. -/
theorem claim_C4_witness :
    ConnectAIModel (fun i => if i = 0 then .success loading503 else .success ok200)
        ⟨[], ""⟩ "" =
      (.ok ⟨"42", [[0, 1]], ["42"], "NONE"⟩, 2) :=
  claim_C4 (fun i => if i = 0 then .success loading503 else .success ok200)
    ⟨[], ""⟩ "" loading503 ok200 ⟨"42", [[0, 1]], ["42"], "NONE"⟩
    rfl loading503_isLoadingZero rfl rfl rfl

/-- C5: a transport-level failure on any attempt (after any number of
retryable 503-loading responses, the only way a later attempt is reached)
makes ConnectAIModel return that transport error immediately: the failing
request is the last one issued and a transport failure is never retried. -/
theorem claim_C5 (transport : Nat → DoResult) (payload : Inputs) (token : String)
    (e : String) (k : Nat) (hk : k < 10)
    (hprev : ∀ i, i < k → ∃ resp, transport i = .success resp ∧ IsLoadingZero resp)
    (hfail : transport k = .failure e) :
    ConnectAIModel transport payload token = (.error e, k + 1) := by
  show connectLoop transport 0 maxRetries = _
  refine connectLoop_fail_at transport e k maxRetries 0 hk ?_ (by simpa using hfail)
  intro j hj
  obtain ⟨resp, ht, hl⟩ := hprev j hj
  obtain ⟨hne, q, hq⟩ := isLoadingZero_retryable resp hl
  exact ⟨resp, by simpa using ht, hne, q, hq⟩

/-- Witness for C5: connection refused on the very first attempt, one
request, zero retries. -/
theorem claim_C5_witness :
    ConnectAIModel (fun _ => .failure "dial tcp: connect: connection refused")
        ⟨[], ""⟩ "" =
      (.error "dial tcp: connect: connection refused", 1) :=
  claim_C5 (fun _ => .failure "dial tcp: connect: connection refused") ⟨[], ""⟩ ""
    "dial tcp: connect: connection refused" 0 (by omega)
    (fun i hi => absurd hi (Nat.not_lt_zero i)) rfl

/-- C2 (code bug evaluation): a 503 whose valid JSON body lacks
estimated_time falls through to the generic failure, but the error message
carries an EMPTY response body — the body stream was already consumed by the
ReadAll at line 100, so the second ReadAll at line 110 yields no bytes.  The
claim (and spec) say the raw body is carried for diagnostics; the code drops
it in exactly this 503 case. -/
theorem claim_C2_bug :
    ConnectAIModel (fun _ => .success noEstimate503) ⟨[], ""⟩ "" =
      (.error
        "failed to connect to AI model, status: 503 Service Unavailable, response: ",
        1) := rfl

/-- C9: an empty query form field is answered with a 400 error page and the
remote model is never contacted (zero requests issued). -/
theorem claim_C9 (table : Table) (token : String) (transport : Nat → DoResult) :
    handleQuery table token transport "" =
      (.errorPage 400 "Query cannot be empty", 0) := rfl

end GoAiWeb
